import Mathlib

/-!
Shallow embedding of the STREAMHUB aggregation and resolution core.

The embedded code comes from the repository's service modules:
the torrent addon service (getStreams, getEpisodeStreams and their
info-hash dedup loop), and the two-backend sports service
(getMatchesFromPPV, getMatchesFromStreamed, getAllMatches,
getMatchStreams).  Network effects are modelled by an explicit
environment carrying the decoded responses; each entry point returns
its result together with the list of requests it issued, so that
"no network call" properties can be stated.
-/

namespace StreamHub

/-! ### JavaScript string primitives, modelled on character lists -/

/-- JS `s.startsWith(pre)`: the characters of the pattern form a
prefix of the characters of the string. -/
def jsStartsWith (s pre : String) : Bool :=
  pre.data.isPrefixOf s.data

/-- Auxiliary recursion for JS `String.prototype.replace` with a plain
string pattern: only the first occurrence is replaced. -/
def replaceFirstAux (pat repl : List Char) : List Char → List Char
  | [] => []
  | c :: cs =>
    if pat.isPrefixOf (c :: cs) then repl ++ List.drop pat.length (c :: cs)
    else c :: replaceFirstAux pat repl cs

/-- JS `s.replace(pat, repl)` for a string pattern: replaces the first
occurrence of the pattern, leaving the string unchanged when the
pattern does not occur. -/
def jsReplaceFirst (s pat repl : String) : String :=
  String.mk (replaceFirstAux pat.data repl.data s.data)

/-- Fuel-indexed recursion behind the JS split model: every step
consumes at least one character, so fuel equal to the input length
never runs out; the fuel-exhausted branch is unreachable when called
that way and merely returns the remainder as one piece. -/
def jsSplitCharsAux (sep : List Char) : Nat → List Char → List (List Char)
  | _, [] => [[]]
  | 0, l => [l]
  | fuel + 1, c :: cs =>
    if sep.isPrefixOf (c :: cs) && !sep.isEmpty then
      [] :: jsSplitCharsAux sep fuel (List.drop (sep.length - 1) cs)
    else
      match jsSplitCharsAux sep fuel cs with
      | [] => [[c]]
      | p :: ps => (c :: p) :: ps

/-- JS `s.split(sep)` for a non-empty string separator, on character
lists.  Splitting the empty list yields one empty piece, matching
JS where splitting the empty string yields one empty-string part. -/
def jsSplitChars (sep l : List Char) : List (List Char) :=
  jsSplitCharsAux sep l.length l

/-- JS `s.split(sep)` on strings. -/
def jsSplitOn (s sep : String) : List String :=
  (jsSplitChars sep.data s.data).map String.mk

/-- Uppercase hexadecimal digit, as produced by JS percent-encoding. -/
def hexDigit (n : Nat) : Char :=
  if n < 10 then Char.ofNat (48 + n) else Char.ofNat (55 + n)

/-- UTF-8 encoding of one code point, as a list of byte values. -/
def utf8Bytes (c : Char) : List Nat :=
  let n := c.toNat
  if n < 128 then [n]
  else if n < 2048 then [192 + n / 64, 128 + n % 64]
  else if n < 65536 then [224 + n / 4096, 128 + (n / 64) % 64, 128 + n % 64]
  else [240 + n / 262144, 128 + (n / 4096) % 64, 128 + (n / 64) % 64, 128 + n % 64]

/-- Characters that JS `encodeURIComponent` leaves unescaped:
letters, digits, and minus, underscore, dot, bang, tilde, star,
apostrophe and parentheses. -/
def encKeep (c : Char) : Bool :=
  (65 ≤ c.toNat && c.toNat ≤ 90) || (97 ≤ c.toNat && c.toNat ≤ 122) ||
  (48 ≤ c.toNat && c.toNat ≤ 57) ||
  c == '-' || c == '_' || c == '.' || c == '!' || c == '~' || c == '*' ||
  c == Char.ofNat 39 || c == '(' || c == ')'

/-- JS `encodeURIComponent(s)`: unreserved characters pass through,
every other character is percent-escaped byte by byte of its UTF-8
encoding, with uppercase hexadecimal digits. -/
def encodeURIComponent (s : String) : String :=
  String.mk (s.data.flatMap fun c =>
    if encKeep c then [c]
    else (utf8Bytes c).flatMap fun b => ['%', hexDigit (b / 16), hexDigit (b % 16)])

/-- JS truthiness of an optional string field: absent and empty
strings are falsy. -/
def jsTruthyStr : Option String → Bool
  | none => false
  | some s => s ≠ ""

/-! ### Torrent addon service (addonService module)

Data model for the torrent streams returned by the two indexer
backends.  Only the fields the service itself touches are modelled;
the rest of the JSON payload is pass-through metadata. -/

/-- A torrent/direct-file stream candidate as returned by an indexer
backend. -/
structure Stream where
  infoHash : Option String
  url : Option String
  title : Option String
  deriving DecidableEq, Repr

/-- The response shape the addon service returns to the UI. -/
structure StreamResponse where
  streams : List Stream
  deriving DecidableEq, Repr

/-- The media type enumeration used by the details page. -/
inductive MediaType
  | MOVIE
  | TV
  deriving DecidableEq, Repr

/-- Fixed secondary torrent indexer base URL from the source. -/
def KNIGHTCRAWLER_BASE_URL : String := "https://knightcrawler.elfhosted.com"

/-- Environment of the torrent addon service.  The field
torrentioDefault stands for the built-in constant TORRENTIO_BASE_URL
(Modelled from the spec: the constants module is not part of the
sources; the spec describes it as a built-in default base URL, whose
concrete value the service logic never inspects).  The field stored
is the runtime override read from local storage, and provider is the
decoded result of fetchFromProvider on a base URL and endpoint, which
already degrades every failure to an empty list. -/
structure TorrentEnv where
  torrentioDefault : String
  stored : Option String
  provider : String → String → List Stream

/-- The service's getBaseUrl: the stored override when it is present
and non-blank, otherwise the built-in default. -/
def getBaseUrl (defaultUrl : String) (stored : Option String) : String :=
  match stored with
  | some s => if 0 < s.trim.length then s else defaultUrl
  | none => defaultUrl

/-- The dedup loop shared by getStreams and getEpisodeStreams: walk
the concatenated list keeping a seen-set of info hashes; a stream
whose hash was already seen is dropped, a stream without a truthy
hash is always kept.  The guard is the JS truthiness of the hash
field, so a present-but-empty hash string counts as no hash and is
never deduplicated. -/
def dedupeLoop : List Stream → List String → List Stream
  | [], _ => []
  | s :: rest, seenHashes =>
    if jsTruthyStr s.infoHash then
      if seenHashes.contains (s.infoHash.getD "") then dedupeLoop rest seenHashes
      else s :: dedupeLoop rest (s.infoHash.getD "" :: seenHashes)
    else s :: dedupeLoop rest seenHashes

/-- The addon service's getStreams: short-circuit on ids that do not
start with "tt", otherwise query both providers on the stremio
endpoint and dedupe the concatenation.  The second component lists
the (base URL, endpoint) requests issued. -/
def getStreams (env : TorrentEnv) (type : MediaType) (id : String) :
    StreamResponse × List (String × String) :=
  let stremioType := if type = MediaType.MOVIE then "movie" else "series"
  let torrentioUrl := getBaseUrl env.torrentioDefault env.stored
  if !(jsStartsWith id "tt") then ({ streams := [] }, [])
  else
    let endpoint := "/stream/" ++ stremioType ++ "/" ++ id ++ ".json"
    let torrentioStreams := env.provider torrentioUrl endpoint
    let knightCrawlerStreams := env.provider KNIGHTCRAWLER_BASE_URL endpoint
    ({ streams := dedupeLoop (torrentioStreams ++ knightCrawlerStreams) [] },
     [(torrentioUrl, endpoint), (KNIGHTCRAWLER_BASE_URL, endpoint)])

/-- The addon service's getEpisodeStreams: build the composite
series id, query both providers, dedupe.  There is no id validation
in this entry point. -/
def getEpisodeStreams (env : TorrentEnv) (imdbId : String) (season episode : Nat) :
    StreamResponse × List (String × String) :=
  let streamId := imdbId ++ ":" ++ toString season ++ ":" ++ toString episode
  let torrentioUrl := getBaseUrl env.torrentioDefault env.stored
  let endpoint := "/stream/series/" ++ streamId ++ ".json"
  let torrentioStreams := env.provider torrentioUrl endpoint
  let knightCrawlerStreams := env.provider KNIGHTCRAWLER_BASE_URL endpoint
  ({ streams := dedupeLoop (torrentioStreams ++ knightCrawlerStreams) [] },
   [(torrentioUrl, endpoint), (KNIGHTCRAWLER_BASE_URL, endpoint)])

/-! ### Two-backend sports service (sportsService module)

Canonical match/source/stream data model, the shapes of the two
upstream payloads, and the aggregation and resolution entry points. -/

/-- A team with display name and optional logo URL. -/
structure SportsTeam where
  name : String
  logo : Option String
  deriving DecidableEq, Repr

/-- Structured home/away pair on a match. -/
structure SportsTeams where
  home : SportsTeam
  away : SportsTeam
  deriving DecidableEq, Repr

/-- A provider-specific pointer to a stream for a match. -/
structure SportsMatchSource where
  source : String
  id : String
  deriving DecidableEq, Repr

/-- A canonical live event record. -/
structure SportsMatch where
  title : String
  category : String
  date : Int
  poster : Option String
  popular : Option Bool
  teams : Option SportsTeams
  sources : List SportsMatchSource
  deriving DecidableEq, Repr

/-- A resolved playable stream descriptor. -/
structure SportsStream where
  id : String
  streamNo : Nat
  language : String
  hd : Bool
  embedUrl : String
  source : String
  deriving DecidableEq, Repr

/-- One stream entry of the PPV backend payload. -/
structure NewApiStream where
  id : Int
  name : String
  tag : String
  poster : String
  uri_name : String
  starts_at : Int
  ends_at : Int
  category_name : String
  iframe : Option String
  always_live : Int
  deriving DecidableEq, Repr

/-- One category of the PPV backend payload. -/
structure NewApiCategory where
  category : String
  id : Int
  streams : List NewApiStream
  deriving DecidableEq, Repr

/-- The decoded PPV backend list payload; the streams field is
optional to reflect the falsy-check on it in the source. -/
structure NewApiResponse where
  success : Bool
  streams : Option (List NewApiCategory)
  deriving DecidableEq, Repr

/-- A raw team of the Streamed backend payload. -/
structure StreamedRawTeam where
  name : String
  badge : Option String
  deriving DecidableEq, Repr

/-- Raw home/away pair of the Streamed backend payload. -/
structure StreamedRawTeams where
  home : StreamedRawTeam
  away : StreamedRawTeam
  deriving DecidableEq, Repr

/-- A raw source entry of the Streamed backend payload. -/
structure StreamedRawSource where
  source : String
  id : String
  deriving DecidableEq, Repr

/-- One raw match of the Streamed backend flat list. -/
structure StreamedApiMatch where
  title : String
  category : String
  date : Int
  poster : Option String
  popular : Option Bool
  teams : Option StreamedRawTeams
  sources : Option (List StreamedRawSource)
  deriving DecidableEq, Repr

/-- CORS relay prefix from the source. -/
def PROXY_URL : String := "https://corsproxy.io/?"

/-- PPV backend base URL from the source. -/
def PPV_BASE : String := "https://ppv.to/api"

/-- Streamed backend base URL from the source. -/
def STREAMED_BASE : String := "https://streamed.pk/api"

/-- The service's formatStreamedPoster helper. -/
def formatStreamedPoster (path : String) : Option String :=
  if path = "" then none
  else if jsStartsWith path "http" then some path
  else some ("https://streamed.pk" ++ path ++ ".webp")

/-- The service's formatPPVPoster helper. -/
def formatPPVPoster (path : String) : Option String :=
  if path = "" then none
  else if jsStartsWith path "http" then some path
  else some (PROXY_URL ++ encodeURIComponent ("https://ppv.to/api/images/proxy/" ++ path ++ ".webp"))

/-- The title-plus-time-window predicate the PPV normalization uses
to look up an existing accumulator match for a stream: identical
title and start times within the two-hour window. -/
def ppvMatchPred (stream : NewApiStream) (m : SportsMatch) : Bool :=
  m.title == stream.name && (m.date - stream.starts_at * 1000).natAbs < 7200000

/-- The source record pushed for one PPV stream, given the number of
sources the target match already holds: tag when non-empty, else a
positional PPV label; the locator is the marked inline iframe when
the iframe field is truthy, else the bare lookup key. -/
def mkPpvSource (stream : NewApiStream) (n : Nat) : SportsMatchSource :=
  { source := if stream.tag = "" then "PPV " ++ toString (n + 1) else stream.tag,
    id :=
      match stream.iframe with
      | some ifr => if ifr = "" then stream.uri_name else "iframe:" ++ ifr
      | none => stream.uri_name }

/-- Push this stream's source record onto a match. -/
def addSource (stream : NewApiStream) (m : SportsMatch) : SportsMatch :=
  { m with sources := m.sources ++ [mkPpvSource stream m.sources.length] }

/-- The fresh match created for a PPV stream that found no
accumulator entry: seconds-to-milliseconds date normalization
happens here. -/
def mkPpvMatch (cat : String) (stream : NewApiStream) : SportsMatch :=
  { title := stream.name,
    category := cat,
    date := stream.starts_at * 1000,
    poster := formatPPVPoster stream.poster,
    popular := none,
    teams := none,
    sources := [] }

/-- Find-first-else-append on the accumulator: the first match
satisfying the predicate receives the new source in place; when none
does, a fresh match carrying the source is appended at the end. -/
def ppvInsert (cat : String) (stream : NewApiStream) : List SportsMatch → List SportsMatch
  | [] => [addSource stream (mkPpvMatch cat stream)]
  | m :: ms =>
    if ppvMatchPred stream m then addSource stream m :: ms
    else m :: ppvInsert cat stream ms

/-- One iteration of the PPV normalization loop: always-live streams
are skipped outright, every other stream is grouped into the
accumulator by title and time window. -/
def ppvStep (cat : String) (acc : List SportsMatch) (stream : NewApiStream) : List SportsMatch :=
  if stream.always_live ≠ 0 then acc
  else ppvInsert cat stream acc

/-- The nested category/stream folds of getMatchesFromPPV. -/
def ppvMatchesOf (cats : List NewApiCategory) : List SportsMatch :=
  cats.foldl (fun acc cat => cat.streams.foldl (ppvStep cat.category) acc) []

/-- The service's getMatchesFromPPV on the decoded response: error or
unsuccessful or stream-less payloads yield the empty list. -/
def getMatchesFromPPV (resp : Except String NewApiResponse) : List SportsMatch :=
  match resp with
  | Except.error _ => []
  | Except.ok data =>
    if data.success = false then []
    else
      match data.streams with
      | none => []
      | some cats => ppvMatchesOf cats

/-- Normalization of one raw Streamed match: posters and badges are
resolved to absolute URLs, and each raw source is encoded as the
composite locator of backend label and id joined by the fixed
separator. -/
def streamedToMatch (m : StreamedApiMatch) : SportsMatch :=
  { title := m.title,
    category := m.category,
    date := m.date,
    poster := if jsTruthyStr m.poster then formatStreamedPoster (m.poster.getD "") else none,
    popular := m.popular,
    teams :=
      match m.teams with
      | some t =>
        some { home := { name := t.home.name,
                         logo := if jsTruthyStr t.home.badge then
                             some ("https://streamed.pk/api/images/badge/" ++ t.home.badge.getD "" ++ ".webp")
                           else none },
               away := { name := t.away.name,
                         logo := if jsTruthyStr t.away.badge then
                             some ("https://streamed.pk/api/images/badge/" ++ t.away.badge.getD "" ++ ".webp")
                           else none } }
      | none => none,
    sources := (m.sources.getD []).map fun s =>
      { source := "Streamed " ++ s.source,
        id := "streamed::" ++ s.source ++ "::" ++ s.id } }

/-- The service's getMatchesFromStreamed on the decoded response:
failures and non-array payloads yield the empty list. -/
def getMatchesFromStreamed (resp : Except String (Option (List StreamedApiMatch))) : List SportsMatch :=
  match resp with
  | Except.error _ => []
  | Except.ok none => []
  | Except.ok (some ms) => ms.map streamedToMatch

/-- Enrichment of one master match from the Streamed candidate list:
the first Streamed match with the same title and a start within the
two-hour window contributes all of its sources, and its team
metadata when the master lacks teams. -/
def enrichFromStreamed (streamedMatches : List SportsMatch) (m : SportsMatch) : SportsMatch :=
  match streamedMatches.find? (fun sm =>
      sm.title == m.title && (sm.date - m.date).natAbs < 7200000) with
  | none => m
  | some found =>
    let m1 := { m with sources := m.sources ++ found.sources }
    if m1.teams.isNone && found.teams.isSome then { m1 with teams := found.teams }
    else m1

/-- The merge step of getAllMatches on the two normalized lists: the
PPV list is the strict master list, each of its matches enriched
from the Streamed list; Streamed-only matches are dropped. -/
def mergeAllMatches (ppvMatches streamedMatches : List SportsMatch) : List SportsMatch :=
  ppvMatches.map (enrichFromStreamed streamedMatches)

/-- Environment of the sports list aggregation: the decoded results
of the two backend list fetches. -/
structure SportsListEnv where
  ppvResp : Except String NewApiResponse
  streamedResp : Except String (Option (List StreamedApiMatch))

/-- The service's getAllMatches: normalize both backends, then merge
with PPV as the master list. -/
def getAllMatches (env : SportsListEnv) : List SportsMatch :=
  mergeAllMatches (getMatchesFromPPV env.ppvResp) (getMatchesFromStreamed env.streamedResp)

/-- Double or single quote, the character class of the source's
src-attribute pattern. -/
def isQuoteChar (c : Char) : Bool :=
  c == '"' || c == Char.ofNat 39

/-- Attempt of the src-attribute pattern at the head of the
character list: the literal characters of src followed by an equals
sign, a quote, one or more non-quote characters (the capture), and a
closing quote. -/
def srcAttrAt : List Char → Option (List Char)
  | 's' :: 'r' :: 'c' :: '=' :: q :: rest =>
    if isQuoteChar q then
      let content := rest.takeWhile (fun c => !isQuoteChar c)
      let rest2 := rest.dropWhile (fun c => !isQuoteChar c)
      if !content.isEmpty && !rest2.isEmpty then some content else none
    else none
  | _ => none

/-- Leftmost-match scan of the src-attribute pattern, the semantics
of JS regex match on this pattern: try every start position from the
left, returning the first capture. -/
def srcAttrScan : List Char → Option (List Char)
  | [] => none
  | c :: cs =>
    match srcAttrAt (c :: cs) with
    | some r => some r
    | none => srcAttrScan cs

/-- The match of the source's src-attribute regular expression on a
string: the first captured attribute value, when the pattern occurs. -/
def srcAttrMatch (s : String) : Option String :=
  (srcAttrScan s.data).map String.mk

/-- Result of one decoded stream-lookup fetch: an array of stream
descriptors, or a payload that is not an array. -/
inductive FetchResult
  | arr (xs : List SportsStream)
  | nonArray
  deriving DecidableEq, Repr

/-- Environment of the stream resolver: the decoded outcome of
fetchApi on each target URL, an exception mapping to the error
case. -/
structure ResolverEnv where
  fetchApi : String → Except String FetchResult

/-- The service's getMatchStreams.  Branch one handles composite
Streamed locators with at least three separator-split parts; branch
two handles inline-iframe locators with no network call; the final
branch sends the percent-encoded locator to the legacy PPV stream
endpoint under the lower-cased source label.  The second component
lists the target URLs fetched. -/
def getMatchStreams (env : ResolverEnv) (source id : String) :
    List SportsStream × List String :=
  let parts := jsSplitOn id "::"
  if jsStartsWith id "streamed::" && decide (3 ≤ parts.length) then
    let realSource := parts.getD 1 ""
    let realId := parts.getD 2 ""
    let url := STREAMED_BASE ++ "/stream/" ++ realSource ++ "/" ++ realId
    (match env.fetchApi url with
     | Except.ok (FetchResult.arr xs) => xs
     | Except.ok FetchResult.nonArray => []
     | Except.error _ => [], [url])
  else if jsStartsWith id "iframe:" then
    let url0 := jsReplaceFirst id "iframe:" ""
    let url1 :=
      match srcAttrMatch url0 with
      | some u => u
      | none => url0
    let url := if jsStartsWith url1 "//" then "https:" ++ url1 else url1
    ([{ id := "direct", streamNo := 1, language := "Default", hd := true,
        embedUrl := url, source := source }], [])
  else
    let safeSource := source.toLower
    let safeId := encodeURIComponent id
    let url := PPV_BASE ++ "/stream/" ++ safeSource ++ "/" ++ safeId
    (match env.fetchApi url with
     | Except.ok (FetchResult.arr xs) => if xs.length = 0 then [] else xs
     | Except.ok FetchResult.nonArray => []
     | Except.error _ => [], [url])


/-! ### Concrete scenario data used by witnesses and counterexamples -/

/-- Primary-backend streams of the concrete dedup scenario. -/
def streamW1 : Stream := ⟨some "aaa111", none, some "primary one"⟩

/-- Second primary-backend stream, hashless. -/
def streamW2 : Stream := ⟨none, some "https://cdn.example/a.mp4", some "primary two"⟩

/-- Secondary-backend stream duplicating the first primary hash. -/
def streamW3 : Stream := ⟨some "aaa111", none, some "secondary dup"⟩

/-- Concrete torrent environment for the dedup scenario. -/
def envW : TorrentEnv :=
  ⟨"https://torrentio.example", none,
   fun base _ => if base = KNIGHTCRAWLER_BASE_URL then [streamW3] else [streamW1, streamW2]⟩

/-- First stream of the case-sensitivity scenario, uppercase hash. -/
def streamA : Stream := ⟨some "ABC123", none, some "upper"⟩

/-- Second stream of the case-sensitivity scenario, lowercase hash. -/
def streamB : Stream := ⟨some "abc123", none, some "lower"⟩

/-- Concrete torrent environment for the case-sensitivity scenario. -/
def envCase : TorrentEnv :=
  ⟨"https://torrentio.example", none,
   fun base _ => if base = KNIGHTCRAWLER_BASE_URL then [streamB] else [streamA]⟩

/-- First backend-A record of the concrete fuzzy-merge scenario. -/
def ppvS1 : NewApiStream := ⟨1, "Game X", "TagA", "", "key1", 1000000, 0, "Football", none, 0⟩

/-- Second record, 7199000 milliseconds later, merge expected. -/
def ppvS2near : NewApiStream := ⟨2, "Game X", "TagB", "", "key2", 1007199, 0, "Football", none, 0⟩

/-- Second record, 7201000 milliseconds later, no merge expected. -/
def ppvS2far : NewApiStream := ⟨3, "Game X", "TagB", "", "key3", 1007201, 0, "Football", none, 0⟩

/-- Concrete backend-A payload for the unit-normalization scenario. -/
def catsW : List NewApiCategory :=
  [⟨"Basketball", 1, [⟨1, "Game Y", "Tag", "", "keyY", 1700000000, 0, "Basketball", none, 0⟩]⟩]

/-- The single match the scenario payload aggregates to. -/
def matchW : SportsMatch :=
  addSource ⟨1, "Game Y", "Tag", "", "keyY", 1700000000, 0, "Basketball", none, 0⟩
    (mkPpvMatch "Basketball" ⟨1, "Game Y", "Tag", "", "keyY", 1700000000, 0, "Basketball", none, 0⟩)

/-- Concrete backend-A master match for the merge scenario. -/
def ppvMatchP : SportsMatch :=
  ⟨"Game Z", "Football", 2000000000, none, none, none, [⟨"TagA", "keyZ"⟩]⟩

/-- Concrete backend-B match within the window, carrying teams. -/
def streamedMatchF : SportsMatch :=
  ⟨"Game Z", "football", 2000500000, none, some true,
   some ⟨⟨"Home", none⟩, ⟨"Away", none⟩⟩,
   [⟨"Streamed alpha", "streamed::alpha::7"⟩]⟩

/-- Concrete resolver environment in which every fetch fails. -/
def envDown : ResolverEnv := ⟨fun _ => Except.error "down"⟩

/-- The stream list served by the all-succeeding resolver
environment. -/
def streamArrW : List SportsStream :=
  [⟨"s1", 1, "English", true, "https://embed.example/x", "alpha"⟩]

/-- Concrete resolver environment in which every fetch yields the
same one-element array. -/
def envArr : ResolverEnv := ⟨fun _ => Except.ok (FetchResult.arr streamArrW)⟩

/-! ### Properties of the info-hash dedup loop -/

/-- A stream with a falsy hash field never satisfies the filter for
a non-empty hash value. -/
theorem beq_some_false_of_falsy {s : Stream} {h : String}
    (ht : jsTruthyStr s.infoHash = false) (hne : h ≠ "") :
    (s.infoHash == some h) = false := by
  cases hsi : s.infoHash with
  | none => rfl
  | some v =>
    rw [hsi] at ht
    simp [jsTruthyStr] at ht
    subst ht
    simp [Ne.symm hne]

/-- A truthy hash field holds some non-empty hash string. -/
theorem infoHash_of_truthy {s : Stream} (ht : jsTruthyStr s.infoHash = true) :
    ∃ v, s.infoHash = some v ∧ v ≠ "" := by
  cases hsi : s.infoHash with
  | none =>
    rw [hsi] at ht
    simp [jsTruthyStr] at ht
  | some v =>
    rw [hsi] at ht
    simp [jsTruthyStr] at ht
    exact ⟨v, rfl, ht⟩

/-- The dedup loop only removes entries: its output is a sublist of
its input, so first-seen order is preserved. -/
theorem dedupeLoop_sublist (l : List Stream) : ∀ (seen : List String),
    List.Sublist (dedupeLoop l seen) l := by
  induction l with
  | nil =>
    intro seen
    simp [dedupeLoop]
  | cons s rest ih =>
    intro seen
    cases ht : jsTruthyStr s.infoHash with
    | false =>
      simpa [dedupeLoop, ht] using List.Sublist.cons₂ s (ih seen)
    | true =>
      by_cases hc : s.infoHash.getD "" ∈ seen
      · simpa [dedupeLoop, ht, hc] using List.Sublist.cons s (ih seen)
      · simpa [dedupeLoop, ht, hc] using List.Sublist.cons₂ s (ih (s.infoHash.getD "" :: seen))

/-- The dedup loop keeps every entry whose hash field is falsy
(absent or the empty string): the count of such entries is
unchanged. -/
theorem dedupeLoop_countP_falsy (l : List Stream) : ∀ (seen : List String),
    (dedupeLoop l seen).countP (fun s => !(jsTruthyStr s.infoHash)) =
      l.countP (fun s => !(jsTruthyStr s.infoHash)) := by
  induction l with
  | nil =>
    intro seen
    simp [dedupeLoop]
  | cons s rest ih =>
    intro seen
    cases ht : jsTruthyStr s.infoHash with
    | false =>
      simp [dedupeLoop, ht, List.countP_cons, ih seen]
    | true =>
      by_cases hc : s.infoHash.getD "" ∈ seen
      · simp [dedupeLoop, ht, hc, List.countP_cons, ih seen]
      · simp [dedupeLoop, ht, hc, List.countP_cons, ih (s.infoHash.getD "" :: seen)]

/-- No entry carrying an already-seen non-empty hash survives the
dedup loop. -/
theorem dedupeLoop_filter_of_seen (h : String) (hne : h ≠ "") (l : List Stream) :
    ∀ (seen : List String), h ∈ seen →
    (dedupeLoop l seen).filter (fun s => s.infoHash == some h) = [] := by
  induction l with
  | nil =>
    intro seen _
    simp [dedupeLoop]
  | cons s rest ih =>
    intro seen hmem
    cases ht : jsTruthyStr s.infoHash with
    | false =>
      simp [dedupeLoop, ht, List.filter_cons, beq_some_false_of_falsy ht hne, ih seen hmem]
    | true =>
      obtain ⟨v, hsi, hv⟩ := infoHash_of_truthy ht
      have htv : jsTruthyStr (some v) = true := by simp [jsTruthyStr, hv]
      by_cases hc : v ∈ seen
      · simp [dedupeLoop, hsi, htv, hc, ih seen hmem]
      · have hvh : v ≠ h := fun he => hc (he ▸ hmem)
        have hp : ((some v : Option String) == some h) = false := by simp [hvh]
        simp [dedupeLoop, hsi, htv, List.filter_cons, hc, hp,
          ih (v :: seen) (List.mem_cons_of_mem v hmem)]

/-- For a not-yet-seen non-empty hash, the dedup loop keeps exactly
the first input entry carrying it. -/
theorem dedupeLoop_filter_first (h : String) (hne : h ≠ "") (l : List Stream) :
    ∀ (seen : List String), h ∉ seen →
    (dedupeLoop l seen).filter (fun s => s.infoHash == some h) =
      (l.find? (fun s => s.infoHash == some h)).toList := by
  induction l with
  | nil =>
    intro seen _
    simp [dedupeLoop]
  | cons s rest ih =>
    intro seen hnm
    cases ht : jsTruthyStr s.infoHash with
    | false =>
      simp [dedupeLoop, ht, List.filter_cons, List.find?_cons,
        beq_some_false_of_falsy ht hne, ih seen hnm]
    | true =>
      obtain ⟨v, hsi, hv⟩ := infoHash_of_truthy ht
      have htv : jsTruthyStr (some v) = true := by simp [jsTruthyStr, hv]
      by_cases hc : v ∈ seen
      · have hvh : v ≠ h := fun he => hnm (he ▸ hc)
        have hp : ((some v : Option String) == some h) = false := by simp [hvh]
        have hb : (v == h) = false := by simp [hvh]
        simp [dedupeLoop, hsi, htv, hc, List.find?_cons, hp, hb, ih seen hnm]
      · by_cases hvh : v = h
        · subst hvh
          have hp : ((some v : Option String) == some v) = true := by simp
          simp [dedupeLoop, hsi, htv, hc, List.filter_cons, List.find?_cons, hp,
            dedupeLoop_filter_of_seen v hne rest (v :: seen) (List.mem_cons_self v seen)]
        · have hp : ((some v : Option String) == some h) = false := by simp [hvh]
          have hb : (v == h) = false := by simp [hvh]
          have hnm2 : h ∉ v :: seen := by
            intro hm
            rcases List.mem_cons.mp hm with hm | hm
            · exact hvh hm.symm
            · exact hnm hm
          simp [dedupeLoop, hsi, htv, hc, List.filter_cons, List.find?_cons, hp, hb,
            ih (v :: seen) hnm2]

/-! ### Claims on the torrent aggregator -/

/-- Claim C2: for any concatenated (primary, secondary) torrent
stream list, the outputs of getStreams and getEpisodeStreams are
sublists of the concatenation (first-seen order preserved), keep
every entry without a truthy info hash (absent or empty-string
hashes, which the source's truthiness guard treats as no hash), and
for any duplicated non-empty info hash keep exactly the entry
appearing earliest in concatenation order. -/
theorem c2_dedup_first_seen (env : TorrentEnv) (type : MediaType) (id imdbId : String)
    (season episode : Nat) (prim sec : List Stream) (h₀ : String) (s₀ : Stream)
    (hid : jsStartsWith id "tt" = true)
    (hp : ∀ e, env.provider (getBaseUrl env.torrentioDefault env.stored) e = prim)
    (hs : ∀ e, env.provider KNIGHTCRAWLER_BASE_URL e = sec)
    (hne : h₀ ≠ "")
    (hfind : (prim ++ sec).find? (fun s => s.infoHash == some h₀) = some s₀) :
    List.Sublist ((getStreams env type id).1.streams) (prim ++ sec) ∧
    ((getStreams env type id).1.streams).countP (fun s => !(jsTruthyStr s.infoHash)) =
      (prim ++ sec).countP (fun s => !(jsTruthyStr s.infoHash)) ∧
    ((getStreams env type id).1.streams).filter (fun s => s.infoHash == some h₀) = [s₀] ∧
    List.Sublist ((getEpisodeStreams env imdbId season episode).1.streams) (prim ++ sec) ∧
    ((getEpisodeStreams env imdbId season episode).1.streams).countP
        (fun s => !(jsTruthyStr s.infoHash)) =
      (prim ++ sec).countP (fun s => !(jsTruthyStr s.infoHash)) ∧
    ((getEpisodeStreams env imdbId season episode).1.streams).filter
        (fun s => s.infoHash == some h₀) = [s₀] := by
  have hA : (getStreams env type id).1.streams = dedupeLoop (prim ++ sec) [] := by
    simp [getStreams, hid, hp, hs]
  have hB : (getEpisodeStreams env imdbId season episode).1.streams =
      dedupeLoop (prim ++ sec) [] := by
    simp [getEpisodeStreams, hp, hs]
  have hfilter : (dedupeLoop (prim ++ sec) []).filter (fun s => s.infoHash == some h₀) = [s₀] := by
    rw [dedupeLoop_filter_first h₀ hne (prim ++ sec) [] (List.not_mem_nil h₀), hfind]
    rfl
  refine ⟨?_, ?_, ?_, ?_, ?_, ?_⟩
  · rw [hA]; exact dedupeLoop_sublist (prim ++ sec) []
  · rw [hA]; exact dedupeLoop_countP_falsy (prim ++ sec) []
  · rw [hA]; exact hfilter
  · rw [hB]; exact dedupeLoop_sublist (prim ++ sec) []
  · rw [hB]; exact dedupeLoop_countP_falsy (prim ++ sec) []
  · rw [hB]; exact hfilter

theorem c2_dedup_first_seen_witness :
    jsStartsWith "tt123" "tt" = true ∧
    ("aaa111" : String) ≠ "" ∧
    (([streamW1, streamW2] ++ [streamW3]).find?
        (fun s => s.infoHash == some "aaa111") = some streamW1) ∧
    (List.Sublist ((getStreams envW MediaType.MOVIE "tt123").1.streams)
        ([streamW1, streamW2] ++ [streamW3]) ∧
     ((getStreams envW MediaType.MOVIE "tt123").1.streams).countP
         (fun s => !(jsTruthyStr s.infoHash)) =
       (([streamW1, streamW2] ++ [streamW3]).countP (fun s => !(jsTruthyStr s.infoHash))) ∧
     ((getStreams envW MediaType.MOVIE "tt123").1.streams).filter
         (fun s => s.infoHash == some "aaa111") = [streamW1] ∧
     List.Sublist ((getEpisodeStreams envW "tt123" 1 2).1.streams)
        ([streamW1, streamW2] ++ [streamW3]) ∧
     ((getEpisodeStreams envW "tt123" 1 2).1.streams).countP
         (fun s => !(jsTruthyStr s.infoHash)) =
       (([streamW1, streamW2] ++ [streamW3]).countP (fun s => !(jsTruthyStr s.infoHash))) ∧
     ((getEpisodeStreams envW "tt123" 1 2).1.streams).filter
         (fun s => s.infoHash == some "aaa111") = [streamW1]) :=
  ⟨by decide, by decide, by decide,
   c2_dedup_first_seen envW MediaType.MOVIE "tt123" "tt123" 1 2
     [streamW1, streamW2] [streamW3] "aaa111" streamW1
     (by decide) (fun e => rfl) (fun e => rfl) (by decide) (by decide)⟩

/-- Claim C5 (amended): getStreams returns an empty response without
any network request whenever the id does not start with the
two-letter prefix, while getEpisodeStreams performs no id validation
and always issues its two backend requests. -/
theorem c5_malformed_id_short_circuit :
    (∀ (env : TorrentEnv) (type : MediaType) (id : String),
       jsStartsWith id "tt" = false →
       getStreams env type id = ({ streams := [] }, [])) ∧
    (∀ (env : TorrentEnv) (imdbId : String) (season episode : Nat),
       ((getEpisodeStreams env imdbId season episode).2).length = 2) := by
  constructor
  · intro env type id h
    simp [getStreams, h]
  · intro env imdbId season episode
    simp [getEpisodeStreams]

theorem c5_malformed_id_short_circuit_witness :
    jsStartsWith "xyz" "tt" = false ∧
    getStreams envW MediaType.MOVIE "xyz" = ({ streams := [] }, []) ∧
    ((getEpisodeStreams envW "xyz" 1 2).2).length = 2 :=
  ⟨by decide,
   c5_malformed_id_short_circuit.1 envW MediaType.MOVIE "xyz" (by decide),
   c5_malformed_id_short_circuit.2 envW "xyz" 1 2⟩

/-- Claim C5 counterexample: an id that does not match the
two-letter-prefix-plus-digits scheme still triggers network
requests: getStreams proceeds for an id with prefix but no digits,
and getEpisodeStreams issues its requests for any malformed id. -/
theorem c5_counterexample :
    (getStreams envW MediaType.MOVIE "ttabc").2 ≠ [] ∧
    (getEpisodeStreams envW "xyz" 1 2).2 ≠ [] := by
  exact ⟨by decide, by decide⟩

/-- Claim C8 (amended): deduplication compares info hashes with
case-sensitive string equality, so two streams whose hashes differ
as strings are both kept, even when the hashes agree
case-insensitively. -/
theorem c8_case_sensitive_dedup (env : TorrentEnv) (type : MediaType) (id : String)
    (s1 s2 : Stream) (h1 h2 : String)
    (hid : jsStartsWith id "tt" = true)
    (hp : ∀ e, env.provider (getBaseUrl env.torrentioDefault env.stored) e = [s1])
    (hs : ∀ e, env.provider KNIGHTCRAWLER_BASE_URL e = [s2])
    (e1 : s1.infoHash = some h1) (e2 : s2.infoHash = some h2) (hne : h1 ≠ h2) :
    (getStreams env type id).1.streams = [s1, s2] := by
  have hA : (getStreams env type id).1.streams = dedupeLoop ([s1] ++ [s2]) [] := by
    simp [getStreams, hid, hp, hs]
  rw [hA]
  by_cases h1e : h1 = "" <;> by_cases h2e : h2 = "" <;>
    simp [dedupeLoop, jsTruthyStr, e1, e2, h1e, h2e, hne, Ne.symm hne]

/-- Claim C8 counterexample: the hashes of the two streams are equal
case-insensitively, yet the aggregator output keeps both entries,
refuting case-insensitive dedup. -/
theorem c8_counterexample :
    ("ABC123".data.map Char.toLower = "abc123".data.map Char.toLower) ∧
    (getStreams envCase MediaType.MOVIE "tt1").1.streams = [streamA, streamB] := by
  exact ⟨by decide, by decide⟩

theorem c8_case_sensitive_dedup_witness :
    jsStartsWith "tt1" "tt" = true ∧
    streamA.infoHash = some "ABC123" ∧ streamB.infoHash = some "abc123" ∧
    ("ABC123" : String) ≠ "abc123" ∧
    (getStreams envCase MediaType.MOVIE "tt1").1.streams = [streamA, streamB] :=
  ⟨by decide, by decide, by decide, by decide,
   c8_case_sensitive_dedup envCase MediaType.MOVIE "tt1" streamA streamB
     "ABC123" "abc123" (by decide) (fun e => rfl) (fun e => rfl)
     (by decide) (by decide) (by decide)⟩

/-! ### Claims on the sports match aggregation -/

/-- Claim C1: in the two-backend aggregator's backend-A
normalization, two records with identical title whose start times
differ by strictly less than 7200000 milliseconds are merged into a
single Match whose sources list is the concatenation of both
records' sources, master record first, while records differing by
more than 7200000 milliseconds stay separate Matches. -/
theorem c1_fuzzy_merge_two_hour_window (c : String) (cid : Int) (s1 s2 : NewApiStream)
    (h1 : s1.always_live = 0) (h2 : s2.always_live = 0) (hn : s2.name = s1.name) :
    (((s1.starts_at * 1000 : Int) - s2.starts_at * 1000).natAbs < 7200000 →
       (ppvMatchesOf [⟨c, cid, [s1, s2]⟩]).map (fun m => m.title) = [s1.name] ∧
       (ppvMatchesOf [⟨c, cid, [s1, s2]⟩]).map (fun m => m.sources) =
         [[mkPpvSource s1 0, mkPpvSource s2 1]]) ∧
    (7200000 < ((s1.starts_at * 1000 : Int) - s2.starts_at * 1000).natAbs →
       (ppvMatchesOf [⟨c, cid, [s1, s2]⟩]).map (fun m => m.title) = [s1.name, s2.name] ∧
       (ppvMatchesOf [⟨c, cid, [s1, s2]⟩]).map (fun m => m.sources) =
         [[mkPpvSource s1 0], [mkPpvSource s2 0]]) := by
  have hfold : ppvMatchesOf [⟨c, cid, [s1, s2]⟩] =
      ppvInsert c s2 (ppvInsert c s1 []) := by
    simp [ppvMatchesOf, ppvStep, h1, h2]
  constructor
  · intro hd
    have hpred : ppvMatchPred s2 (addSource s1 (mkPpvMatch c s1)) = true := by
      simp [ppvMatchPred, addSource, mkPpvMatch, hn]
      exact hd
    rw [hfold]
    show List.map _ (ppvInsert c s2 [addSource s1 (mkPpvMatch c s1)]) = _ ∧
      List.map _ (ppvInsert c s2 [addSource s1 (mkPpvMatch c s1)]) = _
    simp only [ppvInsert, hpred, if_true]
    constructor
    · simp [addSource, mkPpvMatch]
    · simp [addSource, mkPpvMatch]
  · intro hd
    have hpred : ppvMatchPred s2 (addSource s1 (mkPpvMatch c s1)) = false := by
      simp [ppvMatchPred, addSource, mkPpvMatch, hn]
      omega
    rw [hfold]
    show List.map _ (ppvInsert c s2 [addSource s1 (mkPpvMatch c s1)]) = _ ∧
      List.map _ (ppvInsert c s2 [addSource s1 (mkPpvMatch c s1)]) = _
    simp only [ppvInsert, hpred, Bool.false_eq_true, if_false]
    constructor
    · simp [addSource, mkPpvMatch]
    · simp [addSource, mkPpvMatch]

theorem c1_fuzzy_merge_two_hour_window_witness :
    (((ppvS1.starts_at * 1000 : Int) - ppvS2near.starts_at * 1000).natAbs < 7200000 ∧
     7200000 < ((ppvS1.starts_at * 1000 : Int) - ppvS2far.starts_at * 1000).natAbs) ∧
    ((ppvMatchesOf [⟨"Football", 1, [ppvS1, ppvS2near]⟩]).map (fun m => m.title) =
        ["Game X"] ∧
     (ppvMatchesOf [⟨"Football", 1, [ppvS1, ppvS2near]⟩]).map (fun m => m.sources) =
        [[mkPpvSource ppvS1 0, mkPpvSource ppvS2near 1]]) ∧
    ((ppvMatchesOf [⟨"Football", 1, [ppvS1, ppvS2far]⟩]).map (fun m => m.title) =
        ["Game X", "Game X"] ∧
     (ppvMatchesOf [⟨"Football", 1, [ppvS1, ppvS2far]⟩]).map (fun m => m.sources) =
        [[mkPpvSource ppvS1 0], [mkPpvSource ppvS2far 0]]) :=
  ⟨by decide,
   (c1_fuzzy_merge_two_hour_window "Football" 1 ppvS1 ppvS2near rfl rfl rfl).1 (by decide),
   (c1_fuzzy_merge_two_hour_window "Football" 1 ppvS1 ppvS2far rfl rfl rfl).2 (by decide)⟩

/-- The inner backend-A fold ignores streams whose always-live flag
is one: filtering them out of a category leaves the fold's result
unchanged. -/
theorem foldl_ppvStep_filter_always_live (cat : String) (streams : List NewApiStream) :
    ∀ (acc : List SportsMatch),
      (streams.filter fun s => s.always_live != 1).foldl (ppvStep cat) acc =
        streams.foldl (ppvStep cat) acc := by
  induction streams with
  | nil =>
    intro acc
    rfl
  | cons s rest ih =>
    intro acc
    by_cases h : s.always_live = 1
    · have hstep : ppvStep cat acc s = acc := by simp [ppvStep, h]
      simp [List.filter_cons, h, hstep, ih]
    · simp [List.filter_cons, h, ih]

/-- Claim C6: a backend-A stream with always-live flag one never
produces a Match or a Source: removing every such stream from the
payload leaves the aggregated match list unchanged, so the output
never contains anything derived from one. -/
theorem c6_always_live_never_produces (cats : List NewApiCategory) :
    ppvMatchesOf (cats.map fun cat =>
        { cat with streams := cat.streams.filter fun s => s.always_live != 1 }) =
      ppvMatchesOf cats := by
  unfold ppvMatchesOf
  suffices h : ∀ (acc : List SportsMatch),
      (cats.map fun cat =>
        { cat with streams := cat.streams.filter fun s => s.always_live != 1 }).foldl
          (fun acc cat => cat.streams.foldl (ppvStep cat.category) acc) acc =
        cats.foldl (fun acc cat => cat.streams.foldl (ppvStep cat.category) acc) acc from
    h []
  induction cats with
  | nil =>
    intro acc
    rfl
  | cons cat rest ih =>
    intro acc
    simp only [List.map_cons, List.foldl_cons]
    rw [foldl_ppvStep_filter_always_live cat.category cat.streams acc]
    exact ih _

/-- Invariant propagation through the find-first-else-append
insertion: a property preserved by source pushes and holding for the
freshly created match holds for every element of the result. -/
theorem ppvInsert_forall {P : SportsMatch → Prop}
    (hP : ∀ s m, P m → P (addSource s m)) (cat : String) (stream : NewApiStream)
    (hnew : P (addSource stream (mkPpvMatch cat stream))) :
    ∀ ms, (∀ m ∈ ms, P m) → ∀ m ∈ ppvInsert cat stream ms, P m := by
  intro ms
  induction ms with
  | nil =>
    intro _ m hm
    simp only [ppvInsert, List.mem_singleton] at hm
    subst hm
    exact hnew
  | cons x xs ih =>
    intro hall m hm
    cases hpred : ppvMatchPred stream x with
    | true =>
      simp only [ppvInsert, hpred, if_true] at hm
      rcases List.mem_cons.mp hm with hm | hm
      · subst hm
        exact hP stream x (hall x (List.mem_cons_self x xs))
      · exact hall m (List.mem_cons_of_mem x hm)
    | false =>
      simp only [ppvInsert, hpred, Bool.false_eq_true, if_false] at hm
      rcases List.mem_cons.mp hm with hm | hm
      · subst hm
        exact hall m (List.mem_cons_self m xs)
      · exact ih (fun m' hm' => hall m' (List.mem_cons_of_mem x hm')) m hm

/-- Invariant propagation through the backend-A stream fold. -/
theorem foldl_ppvStep_forall {P : SportsMatch → Prop}
    (hP : ∀ s m, P m → P (addSource s m)) (cat : String) :
    ∀ (streams : List NewApiStream) (acc : List SportsMatch),
      (∀ s ∈ streams, s.always_live = 0 → P (addSource s (mkPpvMatch cat s))) →
      (∀ m ∈ acc, P m) → ∀ m ∈ streams.foldl (ppvStep cat) acc, P m := by
  intro streams
  induction streams with
  | nil =>
    intro acc _ hacc m hm
    exact hacc m hm
  | cons s rest ih =>
    intro acc hnew hacc m hm
    rw [List.foldl_cons] at hm
    by_cases hal : s.always_live = 0
    · have hstep : ppvStep cat acc s = ppvInsert cat s acc := by simp [ppvStep, hal]
      rw [hstep] at hm
      exact ih (ppvInsert cat s acc)
        (fun s' hs' => hnew s' (List.mem_cons_of_mem s hs'))
        (ppvInsert_forall hP cat s (hnew s (List.mem_cons_self s rest) hal) acc hacc) m hm
    · have hstep : ppvStep cat acc s = acc := by simp [ppvStep, hal]
      rw [hstep] at hm
      exact ih acc (fun s' hs' => hnew s' (List.mem_cons_of_mem s hs')) hacc m hm

/-- Invariant propagation through the backend-A category fold. -/
theorem foldl_cats_forall {P : SportsMatch → Prop}
    (hP : ∀ s m, P m → P (addSource s m)) :
    ∀ (cs : List NewApiCategory) (acc : List SportsMatch),
      (∀ cat ∈ cs, ∀ s ∈ cat.streams, s.always_live = 0 →
        P (addSource s (mkPpvMatch cat.category s))) →
      (∀ m ∈ acc, P m) →
      ∀ m ∈ cs.foldl (fun acc cat => cat.streams.foldl (ppvStep cat.category) acc) acc, P m := by
  intro cs
  induction cs with
  | nil =>
    intro acc _ hacc m hm
    exact hacc m hm
  | cons cat rest ih =>
    intro acc hnew hacc m hm
    rw [List.foldl_cons] at hm
    exact ih _
      (fun c hc s hs hal => hnew c (List.mem_cons_of_mem cat hc) s hs hal)
      (foldl_ppvStep_forall hP cat.category cat.streams acc
        (fun s hs hal => hnew cat (List.mem_cons_self cat rest) s hs hal) hacc) m hm

/-- Claim C7: every Match produced from the backend-A payload takes
its start time from some non-always-live input stream, multiplied by
one thousand: seconds are normalized to milliseconds at ingestion. -/
theorem c7_seconds_to_millis (cats : List NewApiCategory) :
    ∀ m ∈ ppvMatchesOf cats,
      ∃ cat, cat ∈ cats ∧ ∃ s, s ∈ cat.streams ∧ s.always_live = 0 ∧
        m.date = s.starts_at * 1000 ∧ m.title = s.name := by
  intro m hm
  refine foldl_cats_forall
    (P := fun m => ∃ cat, cat ∈ cats ∧ ∃ s, s ∈ cat.streams ∧ s.always_live = 0 ∧
      m.date = s.starts_at * 1000 ∧ m.title = s.name)
    ?_ cats [] ?_ ?_ m hm
  · rintro s m' ⟨cat, hc, s', hs', hal, hdate, htitle⟩
    exact ⟨cat, hc, s', hs', hal, hdate, htitle⟩
  · intro cat hc s hs hal
    exact ⟨cat, hc, s, hs, hal, rfl, rfl⟩
  · intro m' hm'
    exact absurd hm' (List.not_mem_nil m')

theorem c7_seconds_to_millis_witness :
    ((ppvMatchesOf catsW).map fun m => m.date) = [(1700000000000 : Int)] ∧
    (∃ cat, cat ∈ catsW ∧ ∃ s, s ∈ cat.streams ∧ s.always_live = 0 ∧
      matchW.date = s.starts_at * 1000 ∧ matchW.title = s.name) :=
  ⟨by decide, c7_seconds_to_millis catsW matchW (by decide)⟩

/-- Claim C3: the two-backend merge returns exactly one Match per
backend-A master match and nothing else, so backend-B-only matches
never appear; every output match carries its master's title, date
and category; and the output for each master is dictated by the
lookup into the backend-B list: when no backend-B match corresponds
within the window the master is returned unchanged, and whenever one
is found all of its sources are appended after the master's and its
team metadata is taken exactly when the master lacks teams. -/
theorem c3_master_list_origin (ppv str : List SportsMatch) :
    (mergeAllMatches ppv str).length = ppv.length ∧
    ∀ m ∈ mergeAllMatches ppv str,
      ∃ p, p ∈ ppv ∧ m.title = p.title ∧ m.date = p.date ∧ m.category = p.category ∧
        ((str.find? (fun sm =>
             sm.title == p.title && decide ((sm.date - p.date).natAbs < 7200000)) = none ∧
          m.sources = p.sources ∧ m.teams = p.teams) ∨
         ∃ f, str.find? (fun sm =>
             sm.title == p.title && decide ((sm.date - p.date).natAbs < 7200000)) = some f ∧
           f ∈ str ∧ f.title = p.title ∧ (f.date - p.date).natAbs < 7200000 ∧
           m.sources = p.sources ++ f.sources ∧
           m.teams = (if p.teams.isNone && f.teams.isSome then f.teams else p.teams)) := by
  constructor
  · exact List.length_map ppv (enrichFromStreamed str)
  intro m hm
  rcases List.mem_map.mp hm with ⟨p, hp, he⟩
  refine ⟨p, hp, ?_⟩
  subst he
  unfold enrichFromStreamed
  cases hf : str.find? (fun sm =>
      sm.title == p.title && decide ((sm.date - p.date).natAbs < 7200000)) with
  | none =>
    exact ⟨rfl, rfl, rfl, Or.inl ⟨rfl, rfl, rfl⟩⟩
  | some f =>
    have hfmem := List.mem_of_find?_eq_some hf
    have hfp := List.find?_some hf
    rw [Bool.and_eq_true, beq_iff_eq, decide_eq_true_eq] at hfp
    dsimp only
    by_cases hteams : (p.teams.isNone && f.teams.isSome) = true
    · rw [if_pos hteams]
      exact ⟨rfl, rfl, rfl, Or.inr ⟨f, rfl, hfmem, hfp.1, hfp.2, rfl, (if_pos hteams).symm⟩⟩
    · rw [if_neg hteams]
      exact ⟨rfl, rfl, rfl, Or.inr ⟨f, rfl, hfmem, hfp.1, hfp.2, rfl, (if_neg hteams).symm⟩⟩

theorem c3_master_list_origin_witness :
    (mergeAllMatches [ppvMatchP] [streamedMatchF]).map (fun m => m.sources) =
      [[⟨"TagA", "keyZ"⟩, ⟨"Streamed alpha", "streamed::alpha::7"⟩]] ∧
    (∃ p, p ∈ [ppvMatchP] ∧
      (enrichFromStreamed [streamedMatchF] ppvMatchP).title = p.title ∧
      (enrichFromStreamed [streamedMatchF] ppvMatchP).date = p.date ∧
      (enrichFromStreamed [streamedMatchF] ppvMatchP).category = p.category ∧
      (([streamedMatchF].find? (fun sm =>
           sm.title == p.title && decide ((sm.date - p.date).natAbs < 7200000)) = none ∧
        (enrichFromStreamed [streamedMatchF] ppvMatchP).sources = p.sources ∧
        (enrichFromStreamed [streamedMatchF] ppvMatchP).teams = p.teams) ∨
       ∃ f, [streamedMatchF].find? (fun sm =>
           sm.title == p.title && decide ((sm.date - p.date).natAbs < 7200000)) = some f ∧
         f ∈ [streamedMatchF] ∧ f.title = p.title ∧
         (f.date - p.date).natAbs < 7200000 ∧
         (enrichFromStreamed [streamedMatchF] ppvMatchP).sources = p.sources ++ f.sources ∧
         (enrichFromStreamed [streamedMatchF] ppvMatchP).teams =
           (if p.teams.isNone && f.teams.isSome then f.teams else p.teams))) :=
  ⟨by decide,
   (c3_master_list_origin [ppvMatchP] [streamedMatchF]).2
     (enrichFromStreamed [streamedMatchF] ppvMatchP) (by decide)⟩

/-! ### Properties of the JS string primitives used by the resolver -/

/-- Appending strings appends their character lists. -/
theorem data_append (a b : String) : (a ++ b).data = a.data ++ b.data := by
  cases a
  cases b
  rfl

/-- A character list is a boolean prefix of itself followed by
anything. -/
theorem isPrefixOf_self_append (l r : List Char) : l.isPrefixOf (l ++ r) = true := by
  rw [ List.isPrefixOf_iff_prefix]
  exact List.prefix_append l r

/-- A string starts with any prefix it was built from. -/
theorem jsStartsWith_self_append (pre rest : String) : jsStartsWith (pre ++ rest) pre = true := by
  unfold jsStartsWith
  rw [data_append]
  exact isPrefixOf_self_append pre.data rest.data

/-- Replacing the first occurrence of the inline-iframe marker in a
marker-prefixed character list just strips the marker. -/
theorem replaceFirstAux_strip (rest : List Char) :
    replaceFirstAux ['i','f','r','a','m','e',':'] []
      (['i','f','r','a','m','e',':'] ++ rest) = rest := by
  have hpre : List.isPrefixOf ['i','f','r','a','m','e',':']
      ('i' :: (['f','r','a','m','e',':'] ++ rest)) = true :=
    isPrefixOf_self_append ['i','f','r','a','m','e',':'] rest
  show replaceFirstAux ['i','f','r','a','m','e',':'] []
      ('i' :: (['f','r','a','m','e',':'] ++ rest)) = rest
  simp [replaceFirstAux, hpre, List.drop_succ_cons]

/-- Replacing the first occurrence of the inline-iframe marker in a
marker-prefixed string strips the marker. -/
theorem jsReplaceFirst_strip (rest : String) :
    jsReplaceFirst ("iframe:" ++ rest) "iframe:" "" = rest := by
  unfold jsReplaceFirst
  rw [data_append,
      show "iframe:".data = ['i','f','r','a','m','e',':'] from rfl,
      show "".data = ([] : List Char) from rfl,
      replaceFirstAux_strip rest.data]

/-- Two character lists with different head characters are not
boolean prefixes of one another. -/
theorem isPrefixOf_false_head {a b : Char} (h : (b == a) = false) (l1 l2 : List Char) :
    List.isPrefixOf (b :: l1) (a :: l2) = false := by
  simp [List.isPrefixOf, h]

/-- An inline-iframe locator never carries the composite marker. -/
theorem jsStartsWith_iframe_not_streamed (rest : String) :
    jsStartsWith ("iframe:" ++ rest) "streamed::" = false := by
  unfold jsStartsWith
  rw [data_append,
      show "streamed::".data = 's' :: "treamed::".data from rfl,
      show ("iframe:".data ++ rest.data) = 'i' :: ("frame:".data ++ rest.data) from rfl]
  exact isPrefixOf_false_head (by decide) _ _

/-- A composite-marker locator never carries the inline-iframe
marker. -/
theorem jsStartsWith_streamed_not_iframe {id : String}
    (h : jsStartsWith id "streamed::" = true) :
    jsStartsWith id "iframe:" = false := by
  unfold jsStartsWith at h ⊢
  rw [ List.isPrefixOf_iff_prefix] at h
  obtain ⟨t, ht⟩ := h
  cases hb : "iframe:".data.isPrefixOf id.data with
  | false => rfl
  | true =>
    exfalso
    rw [ List.isPrefixOf_iff_prefix] at hb
    obtain ⟨t2, ht2⟩ := hb
    rw [← ht] at ht2
    have h2 : ('i' :: ("frame:".data ++ t2)) = ('s' :: ("treamed::".data ++ t)) := ht2
    injection h2 with h3 _
    exact absurd h3 (by decide)

/-! ### Claims on the stream resolver -/

/-- Claim C4: a locator beginning with the inline-iframe marker is
resolved with no network request into exactly one stream with
streamNo one, language Default and hd true, whose embed URL is the
first src attribute value of the remainder when one occurs, else the
whole remainder, with protocol-relative URLs prefixed by the https
scheme; in particular the locator iframe://cdn.test/v yields the
embed URL https://cdn.test/v. -/
theorem c4_inline_iframe_resolution (env : ResolverEnv) (source rest : String) :
    getMatchStreams env source ("iframe:" ++ rest) =
      ([{ id := "direct", streamNo := 1, language := "Default", hd := true,
          embedUrl :=
            if jsStartsWith (match srcAttrMatch rest with
                             | some u => u
                             | none => rest) "//" then
              "https:" ++ (match srcAttrMatch rest with
                           | some u => u
                           | none => rest)
            else (match srcAttrMatch rest with
                  | some u => u
                  | none => rest),
          source := source }], []) ∧
    getMatchStreams envDown "SRC" "iframe://cdn.test/v" =
      ([{ id := "direct", streamNo := 1, language := "Default", hd := true,
          embedUrl := "https://cdn.test/v", source := "SRC" }], []) := by
  constructor
  · unfold getMatchStreams
    simp only [jsStartsWith_iframe_not_streamed rest, Bool.false_and, Bool.false_eq_true,
      if_false, jsStartsWith_self_append, if_true, jsReplaceFirst_strip rest]
  · decide

/-- Claim C9: the resolver never propagates a failure: whenever
every fetch the environment can answer fails, decodes to a non-array
or yields no entries, getMatchStreams returns the empty stream list
for every source label and every locator outside the purely
syntactic inline-iframe branch. -/
theorem c9_resolver_error_degrade (env : ResolverEnv) (source id : String)
    (hfail : ∀ u xs, env.fetchApi u = Except.ok (FetchResult.arr xs) → xs = [])
    (hni : jsStartsWith id "iframe:" = false) :
    (getMatchStreams env source id).1 = [] := by
  unfold getMatchStreams
  by_cases hb1 : (jsStartsWith id "streamed::" && decide (3 ≤ (jsSplitOn id "::").length)) = true
  · simp only [hb1, if_true]
    split
    · next xs hx => exact hfail _ xs hx
    · rfl
    · rfl
  · simp only [hb1, Bool.false_eq_true, if_false, hni]
    split
    · next xs hx =>
      have hx0 := hfail _ xs hx
      subst hx0
      rfl
    · rfl
    · rfl

theorem c9_resolver_error_degrade_witness :
    jsStartsWith "somekey" "iframe:" = false ∧
    (getMatchStreams envDown "Alpha" "somekey").1 = [] :=
  ⟨by decide,
   c9_resolver_error_degrade envDown "Alpha" "somekey"
     (fun u xs h => by simp [envDown] at h) (by decide)⟩

/-- Claim C10: a locator that carries the composite marker but
splits into fewer than three parts does not resolve in the composite
branch: the whole locator is sent, percent-encoded, as a bare key to
the legacy backend stream endpoint under the lower-cased source
label, and the resulting list is returned subject only to the
emptiness check. -/
theorem c10_composite_fallthrough (env : ResolverEnv) (source id : String)
    (xs : List SportsStream)
    (h1 : jsStartsWith id "streamed::" = true)
    (h2 : (jsSplitOn id "::").length < 3)
    (hxs : env.fetchApi (PPV_BASE ++ "/stream/" ++ source.toLower ++ "/" ++
        encodeURIComponent id) = Except.ok (FetchResult.arr xs)) :
    (getMatchStreams env source id).2 =
      [PPV_BASE ++ "/stream/" ++ source.toLower ++ "/" ++ encodeURIComponent id] ∧
    (getMatchStreams env source id).1 = (if xs.length = 0 then [] else xs) := by
  have hb1 : (jsStartsWith id "streamed::" && decide (3 ≤ (jsSplitOn id "::").length)) = false := by
    simp [h1]
    omega
  have hni := jsStartsWith_streamed_not_iframe h1
  unfold getMatchStreams
  simp only [hb1, Bool.false_eq_true, if_false, hni]
  rw [hxs]
  exact ⟨trivial, rfl⟩

theorem c10_composite_fallthrough_witness :
    jsStartsWith "streamed::abc" "streamed::" = true ∧
    (jsSplitOn "streamed::abc" "::").length < 3 ∧
    encodeURIComponent "streamed::abc" = "streamed%3A%3Aabc" ∧
    ((getMatchStreams envArr "Alpha" "streamed::abc").2 =
       [PPV_BASE ++ "/stream/" ++ "Alpha".toLower ++ "/" ++
         encodeURIComponent "streamed::abc"] ∧
     (getMatchStreams envArr "Alpha" "streamed::abc").1 =
       (if streamArrW.length = 0 then [] else streamArrW)) :=
  ⟨by decide, by decide, by decide,
   c10_composite_fallthrough envArr "Alpha" "streamed::abc" streamArrW
     (by decide) (by decide) rfl⟩

end StreamHub
